import Mathlib

/-!
Shallow embedding of src/index.py (Tamaduatei_Colab_VU): a pandas/folium
script that downloads two spreadsheets, aggregates occurrence rows by
category ("NÚCLEO_DE_ATUAÇÃO") and by registration date, and builds one
marker layer per category with per-row coordinate parsing.

Machine floats are modelled exactly as the values Python float() can
return from a string: a finite rational, NaN, or a signed infinity.  The
coordinate strings in play are short decimal literals, far below any
double rounding subtleties relevant to these claims, so Rat is used for
the finite magnitudes.
-/

/-- Model of a Python float as produced by parsing text: a finite value
(kept exact as a rational), NaN, or infinity (the Bool is the sign,
true = negative). -/
inductive PyFloat where
  | finite : Rat → PyFloat
  | nan : PyFloat
  | inftyP : PyFloat
  | inftyN : PyFloat
  deriving DecidableEq, Repr

def PyFloat.isNan : PyFloat → Bool
  | .nan => true
  | _ => false

def PyFloat.isFinite : PyFloat → Bool
  | .finite _ => true
  | _ => false

/-- Finite value, with 0 for NaN/infinity; used to state skipna sums. -/
def PyFloat.orZero : PyFloat → Rat
  | .finite q => q
  | _ => 0

/-- IEEE-style addition restricted to what a skipna sum can meet:
finite + finite adds exactly, infinities absorb, opposite infinities
give NaN. -/
def PyFloat.add : PyFloat → PyFloat → PyFloat
  | .nan, _ => .nan
  | _, .nan => .nan
  | .inftyP, .inftyN => .nan
  | .inftyN, .inftyP => .nan
  | .inftyP, _ => .inftyP
  | _, .inftyP => .inftyP
  | .inftyN, _ => .inftyN
  | _, .inftyN => .inftyN
  | .finite a, .finite b => .finite (a + b)

/-! ### Python float() on a string

Python's float(s) strips surrounding whitespace, allows one leading sign,
then either a case-insensitive special word (nan, inf, infinity) or a
decimal literal: digits, an optional fractional part, an optional
exponent part, with at least one digit in the mantissa.  (Underscore
digit separators and non-ASCII digits are not modelled; no claim touches
them.)  pandas to_numeric accepts the same forms for a string cell. -/

/-- Strip leading and trailing whitespace, as float() does. -/
def stripWs (l : List Char) : List Char :=
  ((l.dropWhile Char.isWhitespace).reverse.dropWhile Char.isWhitespace).reverse

/-- Consume one optional leading sign; returns (negative?, rest). -/
def splitSign : List Char → Bool × List Char
  | '+' :: t => (false, t)
  | '-' :: t => (true, t)
  | l => (false, l)

/-- Numeric value of a digit string, most significant first. -/
def digitsVal (l : List Char) : Nat :=
  l.foldl (fun a c => 10 * a + (c.toNat - 48)) 0

/-- Exponent tail after the letter e/E: optional sign then at least one
digit and nothing else. -/
def expTail (m : Rat) (t : List Char) : Option Rat :=
  let p := splitSign t
  let ds := p.2.takeWhile Char.isDigit
  if ds.isEmpty || !(p.2.dropWhile Char.isDigit).isEmpty then none
  else some (if p.1 then m / 10 ^ digitsVal ds else m * 10 ^ digitsVal ds)

/-- Apply an optional exponent part sitting after the mantissa. -/
def applyExp (m : Rat) : List Char → Option Rat
  | [] => some m
  | 'e' :: t => expTail m t
  | 'E' :: t => expTail m t
  | _ => none

/-- Decimal literal (no sign, no special words): digits, optional
fractional part, optional exponent; at least one mantissa digit. -/
def parseDec (l : List Char) : Option Rat :=
  let ip := l.takeWhile Char.isDigit
  let r1 := l.dropWhile Char.isDigit
  match r1 with
  | '.' :: r2 =>
      let fp := r2.takeWhile Char.isDigit
      let r3 := r2.dropWhile Char.isDigit
      if ip.isEmpty && fp.isEmpty then none
      else applyExp ((digitsVal ip : Rat) + (digitsVal fp : Rat) / 10 ^ fp.length) r3
  | _ => if ip.isEmpty then none else applyExp (digitsVal ip) r1

/-- True when the sign-stripped, whitespace-stripped body spells one of
the special words float() accepts: nan, inf, infinity (any case). -/
def isSpecialWord (l : List Char) : Bool :=
  let w := (splitSign (stripWs l)).2.map Char.toLower
  w = ['n','a','n'] || w = ['i','n','f'] || w = ['i','n','f','i','n','i','t','y']

/-- Python float(s) on the character list of s: some value on success,
none exactly when float() raises ValueError. -/
def pyFloatL (l : List Char) : Option PyFloat :=
  let p := splitSign (stripWs l)
  let low := p.2.map Char.toLower
  if low = ['n','a','n'] then some .nan
  else if low = ['i','n','f'] || low = ['i','n','f','i','n','i','t','y'] then
    some (if p.1 then .inftyN else .inftyP)
  else (parseDec p.2).map fun q => .finite (if p.1 then -q else q)

/-! ### The occurrence table

One row of df_ocorrencias, restricted to the columns the script reads.
A missing cell (pandas NaN) is Option.none; the Geolocation column may
also hold a non-string (numeric) cell, which matters for the untyped
membership test in the marker loop. -/

/-- A Geolocation cell: missing (NaN), a string, or a numeric value. -/
inductive PdCell where
  | na : PdCell
  | str : String → PdCell
  | num : PyFloat → PdCell
  deriving DecidableEq, Repr

structure Row where
  nucleo : Option String
  cadastro : Option String
  dataCadastro : Option String
  geolocation : PdCell
  funcionario : Option String
  deriving DecidableEq, Repr

/-- df_ocorrencias.dropna(subset=["NÚCLEO_DE_ATUAÇÃO"]): keep the rows
whose category cell is non-missing (src/index.py line 58). -/
def dropna_nucleo (t : List Row) : List Row :=
  t.filter fun r => r.nucleo.isSome

/-- Distinct values of a list in first-seen order; models pd.unique. -/
def firstSeen {α : Type} [DecidableEq α] : List α → List α
  | [] => []
  | x :: xs => x :: (firstSeen xs).filter (fun y => y ≠ x)

/-- Code-point lexicographic order on strings, the order pandas sorts
group keys with (Python compares strings by code points); stated via
the character lists so that evaluation is kernel-computable.  It agrees
with the library order on String (pdStrLe_iff_le below). -/
@[reducible] def pdStrLe (a b : String) : Prop := ¬ b.toList < a.toList

theorem pdStrLe_iff_le (a b : String) : pdStrLe a b ↔ a ≤ b := by
  unfold pdStrLe
  rw [← String.lt_iff_toList_lt]
  exact not_lt

instance : IsTotal String pdStrLe :=
  ⟨fun a b => by
    rw [pdStrLe_iff_le, pdStrLe_iff_le]
    exact le_total a b⟩

instance : IsTrans String pdStrLe :=
  ⟨fun a b c hab hbc => by
    rw [pdStrLe_iff_le] at *
    exact le_trans hab hbc⟩

/-- Group keys of a pandas groupby over the category column: the distinct
categories, in ascending order (groupby sorts its keys by default). -/
def sortedKeys (rows : List Row) : List String :=
  List.insertionSort pdStrLe (firstSeen (rows.filterMap Row.nucleo))

/-- Count, within the category-filtered rows, of rows in group k whose
"OCORRÊNCIA DE CAMPO CADASTRO" cell is non-missing: this is what
.count() on that selected column returns per group. -/
def catCount (rows : List Row) (k : String) : Nat :=
  (rows.filter fun r => r.nucleo == some k && r.cadastro.isSome).length

/-- resumo_nucleo (src/index.py line 72):
df_ocorrencias.groupby("NÚCLEO_DE_ATUAÇÃO")["OCORRÊNCIA DE CAMPO
CADASTRO"].count().to_dict(), as an ordered association list: keys in
pandas groupby order (sorted ascending), each mapped to the count of
non-null CADASTRO cells in its group. -/
def resumo_nucleo (t : List Row) : List (String × Nat) :=
  let rows := dropna_nucleo t
  (sortedKeys rows).map fun k => (k, catCount rows k)

/-- resumo_data (src/index.py lines 75-76): DATA CADASTRO is parsed with
pd.to_datetime(errors="coerce") and the frame is grouped by the
resulting calendar date with .size().  The date parser is library code,
taken as a parameter; a calendar date is abstracted as its day ordinal
so chronological order is Nat order.  NaT keys (parse failures and
missing cells) are dropped by groupby; keys come out sorted ascending;
size() counts every row of the group. -/
def resumo_data (parse : String → Option Nat) (t : List Row) : List (Nat × Nat) :=
  let rows := dropna_nucleo t
  let dates := rows.filterMap fun r => r.dataCadastro.bind parse
  (List.insertionSort (fun a b => a ≤ b) (firstSeen dates)).map
    fun d => (d, (dates.filter fun x => x == d).length)

/-! ### Marker builder -/

/-- The fixed color palette cores (src/index.py line 155). -/
def cores : List String :=
  ["red", "blue", "green", "purple", "orange", "darkred", "cadetblue", "darkgreen"]

/-- nucleos (line 156): df_ocorrencias["NÚCLEO_DE_ATUAÇÃO"].unique(),
which pandas returns in first-seen order. -/
def nucleos (t : List Row) : List String :=
  firstSeen ((dropna_nucleo t).filterMap Row.nucleo)

/-- cores_nucleo (line 157): the dict comprehension
\x7bnucleo: cores[i % len(cores)] for i, nucleo in enumerate(nucleos)\x7d
as an association list in construction order. -/
def cores_nucleo (t : List Row) : List (String × String) :=
  (nucleos t).enum.map fun p => (p.2, cores.getD (p.1 % cores.length) "")

/-- Python s.split(",") on a character list: the comma-separated pieces,
one more piece than there are commas (so "" splits to [""]). -/
def splitComma : List Char → List (List Char)
  | [] => [[]]
  | c :: rest =>
      if c = ',' then [] :: splitComma rest
      else
        match splitComma rest with
        | [] => [[c]]
        | p :: ps => (c :: p) :: ps

/-- Rendering of a possibly-missing string cell inside an f-string:
a missing cell is the float NaN and prints as "nan". -/
def cellRender : Option String → String
  | some s => s
  | none => "nan"

/-- The popup payload of a marker (the three interpolated fields of
popup_html, src/index.py lines 169-173). -/
structure PopupData where
  nucleo : String
  ocorrencia : String
  funcionario : String
  deriving DecidableEq, Repr

/-- Popup fields for one row.  hasFunc says whether the table has a
FUNCIONÁRIO CADASTRO column at all: row.get(key, default) returns the
default only when the key is absent from the row's index, and a row of
df.iterrows() carries every column of the frame, so a present column
with a missing (NaN) value renders as "nan", not as "N/A". -/
def mkPopup (hasFunc : Bool) (r : Row) : PopupData :=
  { nucleo := cellRender r.nucleo
    ocorrencia := cellRender r.cadastro
    funcionario := if hasFunc then cellRender r.funcionario else "N/A" }

/-- Outcome of the marker-loop body on one row (src/index.py 165-180):
a marker is added, the row is silently skipped, or an uncaught TypeError
aborts the whole run (the membership test "," in row["Geolocation"] sits
outside the try/except ValueError). -/
inductive MarkerStep where
  | marker : PyFloat → PyFloat → PopupData → MarkerStep
  | skipped : MarkerStep
  | typeError : MarkerStep
  deriving DecidableEq, Repr

/-- The loop body: pd.notna(row.get("Geolocation", None)) and "," in
row["Geolocation"], then lat, lng = map(float, split(",")) and the
folium.Marker construction, both inside the try guarded by
except ValueError: continue.  A numeric non-NaN cell passes notna and
then makes the membership test raise TypeError; unpacking a split of
length other than two, or a float() failure, raises ValueError and is
caught; and folium's Marker calls validate_location, which raises
ValueError on a NaN coordinate (it checks math.isnan only, letting
infinities through), also inside the try, so a row whose coordinate
parses to NaN is skipped as well. -/
def processRow (hasFunc : Bool) (r : Row) : MarkerStep :=
  match r.geolocation with
  | .na => .skipped
  | .num f => if f.isNan then .skipped else .typeError
  | .str s =>
      if s.toList.contains ',' then
        match splitComma s.toList with
        | [a, b] =>
            match pyFloatL a, pyFloatL b with
            | some x, some y =>
                if x.isNan || y.isNan then .skipped
                else .marker x y (mkPopup hasFunc r)
            | _, _ => .skipped
        | _ => .skipped
      else .skipped

/-! ### Data normalizer -/

/-- One cell of converter_coluna_numerica (src/index.py 37-44):
astype(str) renders a missing cell as "nan", str.replace(",", ".")
replaces every comma, and pd.to_numeric(errors="coerce") turns a failed
parse into NaN. -/
def normalizeCell (c : Option String) : PyFloat :=
  let s := cellRender c
  match pyFloatL (s.toList.map fun ch => if ch = ',' then '.' else ch) with
  | some f => f
  | none => .nan

/-- converter_coluna_numerica: the whole column when present, the empty
float64 series when the column is absent from the frame. -/
def converter_coluna_numerica (col : Option (List (Option String))) : List PyFloat :=
  match col with
  | some vals => vals.map normalizeCell
  | none => []

/-- pandas Series.sum() with the default skipna=True: NaN entries are
skipped, the rest are added. -/
def seriesSum : List PyFloat → PyFloat
  | [] => .finite 0
  | x :: xs => if x.isNan then seriesSum xs else PyFloat.add x (seriesSum xs)

/-! ### Helper lemmas -/

theorem mem_firstSeen {α : Type} [DecidableEq α] {a : α} {l : List α} :
    a ∈ firstSeen l ↔ a ∈ l := by
  induction l with
  | nil => simp [firstSeen]
  | cons x xs ih =>
      by_cases hax : a = x
      · subst hax; simp [firstSeen]
      · simp [firstSeen, List.mem_filter, hax, ih]

theorem nodup_firstSeen {α : Type} [DecidableEq α] (l : List α) :
    (firstSeen l).Nodup := by
  induction l with
  | nil => simp [firstSeen]
  | cons x xs ih =>
      refine List.Nodup.cons ?_ (ih.filter _)
      intro hx
      have := List.mem_filter.mp hx
      simp at this

theorem sortedKeys_sorted (rows : List Row) :
    (sortedKeys rows).Sorted pdStrLe :=
  List.sorted_insertionSort _ _

theorem sortedKeys_nodup (rows : List Row) : (sortedKeys rows).Nodup :=
  (List.perm_insertionSort _ _).nodup_iff.mpr
    (nodup_firstSeen (rows.filterMap Row.nucleo))

theorem mem_sortedKeys {rows : List Row} {k : String} :
    k ∈ sortedKeys rows ↔ ∃ r ∈ rows, r.nucleo = some k := by
  unfold sortedKeys
  rw [(List.perm_insertionSort _ _).mem_iff, mem_firstSeen, List.mem_filterMap]

theorem length_filter_cons {α : Type} (p : α → Bool) (a : α) (l : List α) :
    (List.filter p (a :: l)).length
      = (if p a then 1 else 0) + (List.filter p l).length := by
  by_cases h : p a <;> simp [List.filter_cons, h, Nat.add_comm]

theorem sum_map_add {α : Type} (f g : α → Nat) (l : List α) :
    (l.map fun a => f a + g a).sum = (l.map f).sum + (l.map g).sum := by
  induction l with
  | nil => simp
  | cons a l ih => simp [ih]; omega

theorem sum_map_ite_zero {α : Type} [DecidableEq α] {k0 : α} {l : List α}
    (h : k0 ∉ l) :
    (l.map fun k => if k0 = k then 1 else 0).sum = 0 := by
  induction l with
  | nil => simp
  | cons a l ih =>
      simp only [List.mem_cons, not_or] at h
      simp [h.1, ih h.2]

theorem sum_map_ite_one {α : Type} [DecidableEq α] {k0 : α} {l : List α}
    (hnd : l.Nodup) (hm : k0 ∈ l) :
    (l.map fun k => if k0 = k then 1 else 0).sum = 1 := by
  induction l with
  | nil => simp at hm
  | cons a l ih =>
      rcases List.mem_cons.mp hm with h | h
      · subst h
        simp [sum_map_ite_zero (List.nodup_cons.mp hnd).1]
      · have hne : k0 ≠ a := by
          rintro rfl; exact (List.nodup_cons.mp hnd).1 h
        simp [hne, ih (List.nodup_cons.mp hnd).2 h]

theorem sum_catCount (keys : List String) (rows : List Row)
    (hnd : keys.Nodup)
    (hcov : ∀ r ∈ rows, ∀ k, r.nucleo = some k → k ∈ keys) :
    (keys.map fun k =>
        (rows.filter fun r => r.nucleo == some k && r.cadastro.isSome).length).sum
      = (rows.filter fun r => r.nucleo.isSome && r.cadastro.isSome).length := by
  induction rows with
  | nil => simp
  | cons r rest ih =>
      have hcov' : ∀ r' ∈ rest, ∀ k, r'.nucleo = some k → k ∈ keys :=
        fun r' h => hcov r' (List.mem_cons_of_mem _ h)
      rw [length_filter_cons]
      have hmap : (keys.map fun k =>
            (List.filter (fun r' => r'.nucleo == some k && r'.cadastro.isSome)
              (r :: rest)).length)
          = keys.map fun k =>
              (if (r.nucleo == some k && r.cadastro.isSome) then 1 else 0)
                + (List.filter (fun r' => r'.nucleo == some k && r'.cadastro.isSome)
                    rest).length := by
        apply List.map_congr_left
        intro k _
        exact length_filter_cons _ _ _
      rw [hmap, sum_map_add, ih hcov']
      congr 1
      cases hn : r.nucleo with
      | none => simp
      | some k0 =>
          have hk0 : k0 ∈ keys := hcov r (List.mem_cons_self _ _) k0 hn
          cases hc : r.cadastro.isSome with
          | false => simp [hn, hc]
          | true =>
              have : (keys.map fun k =>
                  if (some k0 == some k && true) = true then 1 else 0)
                  = keys.map fun k => if k0 = k then 1 else 0 := by
                apply List.map_congr_left
                intro k _
                simp
              simp only [hc, this]
              simp [sum_map_ite_one hnd hk0]

theorem filter_dropna_cat (t : List Row) (k : String) :
    List.filter (fun r => r.nucleo == some k && r.cadastro.isSome) (dropna_nucleo t)
      = List.filter (fun r => r.nucleo == some k && r.cadastro.isSome) t := by
  unfold dropna_nucleo
  rw [List.filter_filter]
  apply List.filter_congr
  intro r _
  cases hn : r.nucleo with
  | none => simp
  | some k1 => simp

theorem length_filter_filterMap (g : Row → Option Nat) (rows : List Row) (d : Nat) :
    ((rows.filterMap g).filter fun x => x == d).length
      = (rows.filter fun r => g r == some d).length := by
  induction rows with
  | nil => rfl
  | cons r rest ih =>
      cases hg : g r with
      | none => simp [List.filterMap_cons, hg, List.filter_cons, ih]
      | some v =>
          by_cases hv : v = d
          · simp [List.filterMap_cons, hg, hv, List.filter_cons, ih]
          · simp [List.filterMap_cons, hg, hv, List.filter_cons, ih]

theorem splitComma_ne_nil (l : List Char) : splitComma l ≠ [] := by
  cases l with
  | nil => simp [splitComma]
  | cons c rest =>
      unfold splitComma
      by_cases h : c = ','
      · simp [h]
      · simp only [h, if_false]
        cases splitComma rest <;> simp

theorem length_splitComma (l : List Char) :
    (splitComma l).length = l.count ',' + 1 := by
  induction l with
  | nil => simp [splitComma]
  | cons c rest ih =>
      by_cases h : c = ','
      · subst h
        simp [splitComma, ih, List.count_cons]
      · unfold splitComma
        simp only [h, if_false]
        cases hsc : splitComma rest with
        | nil => exact absurd hsc (splitComma_ne_nil rest)
        | cons p ps =>
            rw [hsc] at ih
            simp only [List.length_cons] at ih ⊢
            rw [ih, List.count_cons]
            simp [h]

theorem contains_comma_iff (l : List Char) :
    l.contains ',' = true ↔ 2 ≤ (splitComma l).length := by
  rw [List.elem_iff, length_splitComma, ← List.count_pos_iff (a := ',')]
  omega

theorem lookup_enumFrom_map {β : Type} (g : Nat → β) (l : List String) :
    ∀ (s i : Nat) (h : i < l.length), l.Nodup →
      ((l.enumFrom s).map fun p => (p.2, g p.1)).lookup (l.get ⟨i, h⟩)
        = some (g (s + i)) := by
  induction l with
  | nil => intro s i h; simp at h
  | cons a l ih =>
      intro s i h hnd
      cases i with
      | zero => simp [List.enumFrom, List.lookup]
      | succ i =>
          have hlt : i < l.length := Nat.lt_of_succ_lt_succ h
          have hmem : l.get ⟨i, hlt⟩ ∈ l := l.get_mem _ _
          have hne : (l.get ⟨i, hlt⟩ == a) = false := by
            rw [beq_eq_false_iff_ne]
            intro he
            exact (List.nodup_cons.mp hnd).1 (he ▸ hmem)
          have hget : ((a :: l).get ⟨i + 1, h⟩) = l.get ⟨i, hlt⟩ := rfl
          rw [hget]
          simp only [List.enumFrom, List.map_cons, List.lookup, hne]
          rw [ih (s + 1) i hlt (List.nodup_cons.mp hnd).2]
          have harith : s + 1 + i = s + (i + 1) := by omega
          rw [harith]

theorem pyFloatL_not_finite {l : List Char} {x : PyFloat}
    (hp : pyFloatL l = some x) (hf : x.isFinite = false) :
    isSpecialWord l = true := by
  unfold pyFloatL at hp
  unfold isSpecialWord
  simp only [] at hp ⊢
  split_ifs at hp with h1 h2
  · simp [h1]
  · simp only [Bool.or_eq_true] at h2 ⊢
    tauto
  · simp only [Bool.or_eq_true] at h2 ⊢
    tauto
  · rw [Option.map_eq_some'] at hp
    obtain ⟨q, hq, hx⟩ := hp
    rw [← hx] at hf
    simp [PyFloat.isFinite] at hf
  · rw [Option.map_eq_some'] at hp
    obtain ⟨q, hq, hx⟩ := hp
    rw [← hx] at hf
    simp [PyFloat.isFinite] at hf

theorem processRow_eq_str (hasFunc : Bool) (r : Row) (s : String)
    (hg : r.geolocation = .str s) :
    processRow hasFunc r =
      if s.toList.contains ',' then
        match splitComma s.toList with
        | [a, b] =>
            match pyFloatL a, pyFloatL b with
            | some x, some y =>
                if x.isNan || y.isNan then .skipped
                else .marker x y (mkPopup hasFunc r)
            | _, _ => .skipped
        | _ => .skipped
      else .skipped := by
  unfold processRow
  rw [hg]

/-! ### Claim theorems -/

/-- C1 amended: for every occurrence row whose raw coordinate cell is a
string, if the string splits at the commas into exactly two parts, both
parts parse as floats and neither parses to NaN, then exactly that
(lat, lng) pair is produced and a marker is built; if the string has no
comma, a part that does not parse, more than one comma, or a part that
parses to NaN (folium's location validation raises ValueError on NaN
inside the try, caught by the same except), the row is skipped
silently; in no case does the loop body raise an uncaught exception. -/
theorem claim_c1_amended (hasFunc : Bool) (r : Row) (s : String)
    (hg : r.geolocation = .str s) :
    (∀ a b x y, splitComma s.toList = [a, b] →
        pyFloatL a = some x → pyFloatL b = some y →
        x.isNan = false → y.isNan = false →
        processRow hasFunc r = .marker x y (mkPopup hasFunc r))
    ∧ (((splitComma s.toList).length ≠ 2
          ∨ (∃ p ∈ splitComma s.toList, pyFloatL p = none)
          ∨ (∃ p ∈ splitComma s.toList, pyFloatL p = some .nan)) →
        processRow hasFunc r = .skipped)
    ∧ processRow hasFunc r ≠ .typeError := by
  rw [processRow_eq_str hasFunc r s hg]
  refine ⟨?_, ?_, ?_⟩
  · intro a b x y h2 hx hy hxn hyn
    have hc : s.toList.contains ',' = true := by
      rw [contains_comma_iff, h2]
      simp
    rw [if_pos hc, h2]
    dsimp only
    rw [hx, hy]
    dsimp only
    simp [hxn, hyn]
  · intro h
    by_cases hc : s.toList.contains ',' = true
    · rw [if_pos hc]
      rcases hsc : splitComma s.toList with _ | ⟨a, _ | ⟨b, _ | ⟨c, rest⟩⟩⟩
      · exact absurd hsc (splitComma_ne_nil _)
      · rfl
      · rcases h with hlen | ⟨p, hp, hnone⟩ | ⟨p, hp, hnan⟩
        · rw [hsc] at hlen
          simp at hlen
        · rw [hsc] at hp
          dsimp only
          cases hpa : pyFloatL a <;> cases hpb : pyFloatL b
          · rfl
          · rfl
          · rfl
          · exfalso
            rcases List.mem_cons.mp hp with rfl | hp
            · rw [hpa] at hnone
              exact Option.noConfusion hnone
            · rcases List.mem_singleton.mp hp with rfl
              rw [hpb] at hnone
              exact Option.noConfusion hnone
        · rw [hsc] at hp
          dsimp only
          cases hpa : pyFloatL a <;> cases hpb : pyFloatL b
          · rfl
          · rfl
          · rfl
          · rcases List.mem_cons.mp hp with rfl | hp
            · rw [hpa] at hnan
              injection hnan with hxe
              subst hxe
              simp [PyFloat.isNan]
            · rcases List.mem_singleton.mp hp with rfl
              rw [hpb] at hnan
              injection hnan with hye
              subst hye
              simp [PyFloat.isNan]
      · rfl
    · rw [if_neg hc]
  · by_cases hc : s.toList.contains ',' = true
    · rw [if_pos hc]
      split
      · split
        · split <;> simp
        · simp
      · simp
    · rw [if_neg hc]
      simp

/-- A row with a well-formed integer coordinate string. -/
def rowGood : Row :=
  { nucleo := some "A", cadastro := some "X", dataCadastro := none
    geolocation := .str "1,2", funcionario := none }

/-- A row whose coordinate cell is numeric (non-missing, non-string). -/
def rowNum : Row :=
  { nucleo := some "A", cadastro := some "X", dataCadastro := none
    geolocation := .num (.finite 12), funcionario := none }

/-- A row whose coordinate string has a NaN-spelling part. -/
def rowNanCoord : Row :=
  { nucleo := some "A", cadastro := some "X", dataCadastro := none
    geolocation := .str "nan,1", funcionario := none }

/-- A row whose coordinate string has an infinity-spelling part. -/
def rowInf : Row :=
  { nucleo := some "A", cadastro := some "X", dataCadastro := none
    geolocation := .str "1,inf", funcionario := none }

/-- Inversion of the marker loop body: a built marker comes from a
string cell splitting into exactly two float-parseable parts neither of
which parses to NaN (folium rejects NaN locations inside the caught
try), and the popup is the one built from the row. -/
theorem marker_inversion {hasFunc : Bool} {r : Row} {lat lng : PyFloat}
    {pd : PopupData} (h : processRow hasFunc r = .marker lat lng pd) :
    ∃ s a b, r.geolocation = .str s ∧ splitComma s.toList = [a, b]
      ∧ pyFloatL a = some lat ∧ pyFloatL b = some lng
      ∧ lat.isNan = false ∧ lng.isNan = false
      ∧ pd = mkPopup hasFunc r := by
  cases hg : r.geolocation with
  | na =>
      unfold processRow at h
      rw [hg] at h
      simp at h
  | num f =>
      unfold processRow at h
      rw [hg] at h
      by_cases hn : f.isNan = true <;> simp [hn] at h
  | str s =>
      rw [processRow_eq_str hasFunc r s hg] at h
      by_cases hc : s.toList.contains ',' = true
      · rw [if_pos hc] at h
        split at h
        · rename_i a b hsc
          split at h
          · rename_i x y hpa hpb
            split at h
            · exact absurd h (by simp)
            · rename_i hno
              injection h with h1 h2 h3
              subst h1
              subst h2
              rw [Bool.or_eq_true] at hno
              refine ⟨s, a, b, rfl, hsc, hpa, hpb, ?_, ?_, h3.symm⟩
              · cases hval : PyFloat.isNan x
                · rfl
                · exact absurd (Or.inl hval) hno
              · cases hval : PyFloat.isNan y
                · rfl
                · exact absurd (Or.inr hval) hno
          · exact absurd h (by simp)
        · exact absurd h (by simp)
      · rw [if_neg hc] at h
        exact absurd h (by simp)

theorem claim_c1_amended_witness :
    processRow false rowGood
      = .marker (.finite 1) (.finite 2)
          { nucleo := "A", ocorrencia := "X", funcionario := "N/A" } :=
  (claim_c1_amended false rowGood "1,2" rfl).1 ['1'] ['2'] (.finite 1) (.finite 2)
    (by decide) (by decide) (by decide) rfl rfl

/-- C1 counterexample: "nan,1" splits into exactly two float()-parseable
parts ("nan" parses, to NaN), yet the program builds no marker for the
row: folium's validate_location raises ValueError on the NaN location
inside the try, the except catches it, and the row is skipped. -/
theorem claim_c1_counterexample :
    splitComma "nan,1".toList = [['n', 'a', 'n'], ['1']]
      ∧ pyFloatL ['n', 'a', 'n'] = some .nan
      ∧ pyFloatL ['1'] = some (.finite 1)
      ∧ processRow false rowNanCoord = .skipped := by
  refine ⟨by decide, by decide, by decide, by decide⟩

/-- C10: the marker loop body is total only over rows whose coordinate
cell is missing or a string: a string cell can never make it raise, a
missing cell is skipped, but a non-missing non-string (numeric) cell
makes the untyped membership test raise a TypeError that the
except ValueError guard does not catch, aborting the run instead of
skipping the row. -/
theorem claim_c10 (hasFunc : Bool) (r : Row) :
    (∀ s, r.geolocation = .str s → processRow hasFunc r ≠ .typeError)
    ∧ (r.geolocation = .na → processRow hasFunc r = .skipped)
    ∧ (∀ f, r.geolocation = .num f → f.isNan = false →
        processRow hasFunc r = .typeError) := by
  refine ⟨?_, ?_, ?_⟩
  · intro s hg
    rw [processRow_eq_str hasFunc r s hg]
    by_cases hc : s.toList.contains ',' = true
    · rw [if_pos hc]
      split
      · split
        · split <;> simp
        · simp
      · simp
    · rw [if_neg hc]
      simp
  · intro hg
    unfold processRow
    rw [hg]
  · intro f hg hnan
    unfold processRow
    rw [hg]
    simp [hnan]

theorem claim_c10_witness : processRow false rowNum = .typeError :=
  (claim_c10 false rowNum).2.2 (.finite 12) rfl rfl

/-- C5 counterexample: the coordinate string "1,inf" passes parsing
(Python float() accepts "inf") and folium's NaN-only location check
lets infinities through, so a marker is built whose longitude is
infinite — not a valid finite float. -/
theorem claim_c5_counterexample :
    processRow false rowInf
        = .marker (.finite 1) .inftyP
            { nucleo := "A", ocorrencia := "X", funcionario := "N/A" }
      ∧ PyFloat.isFinite .inftyP = false := by
  refine ⟨by decide, rfl⟩

/-- C5 amended: every marker built by the loop body carries exactly the
float values parsed from the two comma-separated parts of the row's
coordinate string; neither coordinate is NaN (folium's validate_location
raises ValueError on NaN inside the caught try, skipping the row), but
finiteness is still not guaranteed: a coordinate can be infinite —
exactly when its part spells one of the special words float() accepts —
because the NaN-only location check lets infinities through. -/
theorem claim_c5_amended (hasFunc : Bool) (r : Row) (lat lng : PyFloat)
    (pd : PopupData) (h : processRow hasFunc r = .marker lat lng pd) :
    ∃ s a b, r.geolocation = .str s ∧ splitComma s.toList = [a, b]
      ∧ pyFloatL a = some lat ∧ pyFloatL b = some lng
      ∧ lat.isNan = false ∧ lng.isNan = false
      ∧ (lat.isFinite = false →
          (lat = .inftyP ∨ lat = .inftyN) ∧ isSpecialWord a = true)
      ∧ (lng.isFinite = false →
          (lng = .inftyP ∨ lng = .inftyN) ∧ isSpecialWord b = true) := by
  obtain ⟨s, a, b, hg, hsc, hpa, hpb, hn1, hn2, _⟩ := marker_inversion h
  refine ⟨s, a, b, hg, hsc, hpa, hpb, hn1, hn2, ?_, ?_⟩
  · intro hf
    refine ⟨?_, pyFloatL_not_finite hpa hf⟩
    cases lat
    · simp [PyFloat.isFinite] at hf
    · simp [PyFloat.isNan] at hn1
    · exact Or.inl rfl
    · exact Or.inr rfl
  · intro hf
    refine ⟨?_, pyFloatL_not_finite hpb hf⟩
    cases lng
    · simp [PyFloat.isFinite] at hf
    · simp [PyFloat.isNan] at hn2
    · exact Or.inl rfl
    · exact Or.inr rfl

theorem claim_c5_amended_witness :
    ∃ s a b, rowInf.geolocation = .str s ∧ splitComma s.toList = [a, b]
      ∧ pyFloatL a = some (.finite 1) ∧ pyFloatL b = some PyFloat.inftyP
      ∧ PyFloat.isNan (.finite 1) = false ∧ PyFloat.isNan .inftyP = false
      ∧ (PyFloat.isFinite (.finite 1) = false →
          ((.finite 1 : PyFloat) = .inftyP ∨ (.finite 1 : PyFloat) = .inftyN)
            ∧ isSpecialWord a = true)
      ∧ (PyFloat.isFinite .inftyP = false →
          (PyFloat.inftyP = .inftyP ∨ PyFloat.inftyP = .inftyN)
            ∧ isSpecialWord b = true) :=
  claim_c5_amended false rowInf (.finite 1) .inftyP
    { nucleo := "A", ocorrencia := "X", funcionario := "N/A" } (by decide)

/-- C6 counterexample: rowGood sits in a table that does have the
FUNCIONÁRIO CADASTRO column (hasFunc = true) but the value is missing
for the row; the popup then shows the rendered missing value "nan",
not the placeholder "N/A", so the claim's "missing for that row"
reading fails. -/
theorem claim_c6_counterexample :
    rowGood.funcionario = none
      ∧ processRow true rowGood
          = .marker (.finite 1) (.finite 2)
              { nucleo := "A", ocorrencia := "X", funcionario := "nan" }
      ∧ ("nan" : String) ≠ "N/A" := by
  refine ⟨rfl, by decide, by decide⟩

/-- C6 amended: for every row that passes coordinate parsing, the popup
is built from the rendered category, the rendered primary identifier
and the employee-name field, where the placeholder "N/A" is used
exactly when the employee-name column is absent from the table
(row.get's default fires only for an absent key); when the column is
present a missing value renders as "nan". -/
theorem claim_c6_amended (hasFunc : Bool) (r : Row) (lat lng : PyFloat)
    (pd : PopupData) (h : processRow hasFunc r = .marker lat lng pd) :
    pd.nucleo = cellRender r.nucleo
    ∧ pd.ocorrencia = cellRender r.cadastro
    ∧ pd.funcionario = (if hasFunc then cellRender r.funcionario else "N/A") := by
  obtain ⟨s, a, b, hg, hsc, hpa, hpb, hn1, hn2, hpd⟩ := marker_inversion h
  subst hpd
  exact ⟨rfl, rfl, rfl⟩

theorem claim_c6_amended_witness :
    ({ nucleo := "A", ocorrencia := "X", funcionario := "nan" } : PopupData).nucleo
        = cellRender rowGood.nucleo
      ∧ ({ nucleo := "A", ocorrencia := "X", funcionario := "nan" } : PopupData).ocorrencia
        = cellRender rowGood.cadastro
      ∧ ({ nucleo := "A", ocorrencia := "X", funcionario := "nan" } : PopupData).funcionario
        = (if true then cellRender rowGood.funcionario else "N/A") :=
  claim_c6_amended true rowGood (.finite 1) (.finite 2)
    { nucleo := "A", ocorrencia := "X", funcionario := "nan" } (by decide)

/-- A row with the given category and a present CADASTRO cell. -/
def mkRowCat (k : String) : Row :=
  { nucleo := some k, cadastro := some "X", dataCadastro := none
    geolocation := .na, funcionario := none }

/-- A row with category "A" but a missing CADASTRO cell. -/
def rowNoCad : Row :=
  { nucleo := some "A", cadastro := none, dataCadastro := none
    geolocation := .na, funcionario := none }

/-- C2 counterexample: with categories first seen in the order B, A the
summary keys come out A, B — pandas groupby sorts its keys — so key
order is not first-seen order. -/
theorem claim_c2_counterexample :
    (resumo_nucleo [mkRowCat "B", mkRowCat "A"]).map Prod.fst = ["A", "B"]
      ∧ nucleos [mkRowCat "B", mkRowCat "A"] = ["B", "A"]
      ∧ (["A", "B"] : List String) ≠ ["B", "A"] := by
  refine ⟨by decide, by decide, by decide⟩

/-- C2 corrected: the keys of CategorySummary are the categories present
in the table, without duplicates, in ascending lexicographic order (the
order pandas groupby sorts its keys into); this equals first-seen order
only when the categories happen to first appear in sorted order. -/
theorem claim_c2_amended (t : List Row) :
    ((resumo_nucleo t).map Prod.fst).Sorted (fun a b => a ≤ b)
    ∧ ((resumo_nucleo t).map Prod.fst).Nodup
    ∧ (∀ k, k ∈ (resumo_nucleo t).map Prod.fst
        ↔ ∃ r ∈ dropna_nucleo t, r.nucleo = some k) := by
  have hfst : (resumo_nucleo t).map Prod.fst = sortedKeys (dropna_nucleo t) := by
    unfold resumo_nucleo
    rw [List.map_map]
    rw [show (Prod.fst ∘ fun k => (k, catCount (dropna_nucleo t) k)) = id from rfl,
      List.map_id]
  refine ⟨?_, ?_, ?_⟩
  · rw [hfst]
    exact (sortedKeys_sorted _).imp fun h => (pdStrLe_iff_le _ _).mp h
  · rw [hfst]
    exact sortedKeys_nodup _
  · intro k
    rw [hfst, mem_sortedKeys]

theorem claim_c2_amended_witness :
    "A" ∈ (resumo_nucleo [mkRowCat "B", mkRowCat "A"]).map Prod.fst :=
  ((claim_c2_amended [mkRowCat "B", mkRowCat "A"]).2.2 "A").mpr
    ⟨mkRowCat "A", by decide, rfl⟩

/-- C3 counterexample: one row with a category but a missing CADASTRO
cell: the summary's only count is 0, yet one row has a non-missing
category key, so the sum of CategorySummary values undercounts. -/
theorem claim_c3_counterexample :
    ((resumo_nucleo [rowNoCad]).map Prod.snd).sum = 0
      ∧ (dropna_nucleo [rowNoCad]).length = 1
      ∧ (0 : Nat) ≠ 1 := by
  refine ⟨by decide, by decide, by decide⟩

/-- C3 corrected: the sum of all CategorySummary values equals the
number of occurrence rows with BOTH a non-missing category key and a
non-missing "OCORRÊNCIA DE CAMPO CADASTRO" cell (the groupby counts the
selected CADASTRO column, which skips its missing cells). -/
theorem claim_c3_amended (t : List Row) :
    ((resumo_nucleo t).map Prod.snd).sum
      = (t.filter fun r => r.nucleo.isSome && r.cadastro.isSome).length := by
  have hcov : ∀ r ∈ dropna_nucleo t, ∀ k, r.nucleo = some k →
      k ∈ sortedKeys (dropna_nucleo t) := by
    intro r hr k hk
    rw [mem_sortedKeys]
    exact ⟨r, hr, hk⟩
  have hsum := sum_catCount (sortedKeys (dropna_nucleo t)) (dropna_nucleo t)
    (sortedKeys_nodup _) hcov
  have hmap : (resumo_nucleo t).map Prod.snd
      = (sortedKeys (dropna_nucleo t)).map fun k =>
          ((dropna_nucleo t).filter fun r =>
            r.nucleo == some k && r.cadastro.isSome).length := by
    unfold resumo_nucleo catCount
    rw [List.map_map]
    rfl
  rw [hmap, hsum]
  unfold dropna_nucleo
  rw [List.filter_filter]
  apply congrArg List.length
  apply List.filter_congr
  intro r _
  cases hn : r.nucleo <;> simp

/-- C4: every stored count of CategorySummary equals the number of
occurrence rows carrying that category together with a non-missing
"OCORRÊNCIA DE CAMPO CADASTRO" cell. -/
theorem claim_c4 (t : List Row) (k : String) (n : Nat)
    (h : (k, n) ∈ resumo_nucleo t) :
    n = (t.filter fun r => r.nucleo == some k && r.cadastro.isSome).length := by
  unfold resumo_nucleo at h
  rw [List.mem_map] at h
  obtain ⟨k1, hk1, heq⟩ := h
  have hk : k1 = k := congrArg Prod.fst heq
  have hn : catCount (dropna_nucleo t) k1 = n := congrArg Prod.snd heq
  rw [← hn, ← hk, ← filter_dropna_cat t k1]
  rfl

theorem claim_c4_witness :
    1 = (List.filter (fun r => r.nucleo == some "A" && r.cadastro.isSome)
          [mkRowCat "A"]).length :=
  claim_c4 [mkRowCat "A"] "A" 1 (by decide)

/-- C7: the palette cores has length 8; the i-th distinct category in
first-seen order (0-indexed) is assigned cores[i mod 8]; in particular
a 9th distinct category receives the same color as the 1st.  The
mapping cores_nucleo is built once per run as a pure function of the
category sequence, so an assignment cannot change within a run. -/
theorem claim_c7 (t : List Row) (i : Nat) (h : i < (nucleos t).length) :
    cores.length = 8
    ∧ (cores_nucleo t).lookup ((nucleos t).get ⟨i, h⟩)
        = some (cores.getD (i % 8) "")
    ∧ (∀ h8 : 8 < (nucleos t).length, ∀ h0 : 0 < (nucleos t).length,
        (cores_nucleo t).lookup ((nucleos t).get ⟨8, h8⟩)
          = (cores_nucleo t).lookup ((nucleos t).get ⟨0, h0⟩)) := by
  have hnd : (nucleos t).Nodup := nodup_firstSeen _
  have hlk : ∀ (j : Nat) (hj : j < (nucleos t).length),
      (cores_nucleo t).lookup ((nucleos t).get ⟨j, hj⟩)
        = some (cores.getD (j % 8) "") := by
    intro j hj
    have heq : cores_nucleo t
        = ((nucleos t).enumFrom 0).map
            (fun p => (p.2, (fun i => cores.getD (i % cores.length) "") p.1)) := rfl
    rw [heq,
      lookup_enumFrom_map (fun i => cores.getD (i % cores.length) "") (nucleos t) 0 j hj hnd]
    rw [Nat.zero_add]
    rfl
  exact ⟨rfl, hlk i h, fun h8 h0 => by rw [hlk 8 h8, hlk 0 h0]⟩

/-- Nine rows with nine distinct categories, first seen in this order. -/
def t9 : List Row :=
  ["A", "B", "C", "D", "E", "F", "G", "H", "I"].map mkRowCat

theorem claim_c7_witness :
    cores.length = 8
    ∧ (cores_nucleo t9).lookup ((nucleos t9).get ⟨8, by decide⟩)
        = some (cores.getD (8 % 8) "")
    ∧ (∀ h8 : 8 < (nucleos t9).length, ∀ h0 : 0 < (nucleos t9).length,
        (cores_nucleo t9).lookup ((nucleos t9).get ⟨8, h8⟩)
          = (cores_nucleo t9).lookup ((nucleos t9).get ⟨0, h0⟩)) :=
  claim_c7 t9 8 (by decide)

theorem seriesSum_finite (l : List PyFloat)
    (h : ∀ x ∈ l, x.isFinite = true ∨ x.isNan = true) :
    seriesSum l = .finite ((l.map PyFloat.orZero).sum) := by
  induction l with
  | nil => simp [seriesSum]
  | cons x xs ih =>
      have hxs : ∀ y ∈ xs, y.isFinite = true ∨ y.isNan = true :=
        fun y hy => h y (List.mem_cons_of_mem _ hy)
      have hx := h x (List.mem_cons_self _ _)
      cases x with
      | finite q =>
          simp [seriesSum, PyFloat.isNan, ih hxs, PyFloat.add, PyFloat.orZero]
      | nan =>
          simp [seriesSum, PyFloat.isNan, ih hxs, PyFloat.orZero]
      | inftyP =>
          rcases hx with hx | hx <;>
            simp [PyFloat.isFinite, PyFloat.isNan] at hx
      | inftyN =>
          rcases hx with hx | hx <;>
            simp [PyFloat.isFinite, PyFloat.isNan] at hx

/-- C8: numeric normalization replaces each comma by a period and then
attempts a numeric parse; it is a total function, never raising:
"1,5" gives 1.5, "abc" gives the missing marker, "" gives the missing
marker, a missing cell stays missing, and a skipna sum over a
normalized column whose entries are all finite or missing equals the
exact sum in which missing entries contribute zero. -/
theorem claim_c8 :
    normalizeCell (some "1,5") = .finite (3 / 2)
    ∧ normalizeCell (some "abc") = .nan
    ∧ normalizeCell (some "") = .nan
    ∧ normalizeCell none = .nan
    ∧ (∀ vals : List (Option String),
        (∀ c ∈ vals, (normalizeCell c).isFinite = true
            ∨ (normalizeCell c).isNan = true) →
        seriesSum (converter_coluna_numerica (some vals))
          = .finite ((vals.map fun c => (normalizeCell c).orZero).sum)) := by
  refine ⟨?_, by decide, by decide, by decide, ?_⟩
  · have hv : normalizeCell (some "1,5")
        = .finite ((digitsVal ['1'] : Rat)
            + (digitsVal ['5'] : Rat) / 10 ^ (['5'].length)) := rfl
    have e1 : digitsVal ['1'] = 1 := rfl
    have e5 : digitsVal ['5'] = 5 := rfl
    rw [hv, e1, e5]
    norm_num
  · intro vals hval
    have h : ∀ x ∈ vals.map normalizeCell,
        x.isFinite = true ∨ x.isNan = true := by
      intro x hx
      rw [List.mem_map] at hx
      obtain ⟨c, hc, rfl⟩ := hx
      exact hval c hc
    have hs := seriesSum_finite (vals.map normalizeCell) h
    unfold converter_coluna_numerica
    rw [hs, List.map_map]
    rfl

theorem claim_c8_witness :
    seriesSum (converter_coluna_numerica (some [some "2", none]))
      = .finite (([some "2", none].map fun c => (normalizeCell c).orZero).sum) :=
  claim_c8.2.2.2.2 [some "2", none] (by decide)

/-- C9: DateSummary maps each successfully parsed calendar date to the
number of rows bearing that date (groupby size over the valid rows);
rows whose date fails to parse (or is missing) appear under no key and
are excluded from this summary only — resumo_nucleo is unchanged under
any rewrite of the date column; the keys are exactly the successfully
parsed dates, without duplicates, in chronologically ascending order. -/
theorem claim_c9 (parse : String → Option Nat) (t : List Row) :
    ((resumo_data parse t).map Prod.fst).Sorted (fun a b => a ≤ b)
    ∧ ((resumo_data parse t).map Prod.fst).Nodup
    ∧ (∀ d n, (d, n) ∈ resumo_data parse t →
        n = ((dropna_nucleo t).filter fun r =>
              r.dataCadastro.bind parse == some d).length ∧ 0 < n)
    ∧ (∀ d, d ∈ (resumo_data parse t).map Prod.fst
        ↔ ∃ r ∈ dropna_nucleo t, r.dataCadastro.bind parse = some d)
    ∧ (∀ f : Row → Option String,
        resumo_nucleo (t.map fun r =>
          { nucleo := r.nucleo, cadastro := r.cadastro, dataCadastro := f r
            geolocation := r.geolocation, funcionario := r.funcionario })
          = resumo_nucleo t) := by
  have hfst : (resumo_data parse t).map Prod.fst
      = List.insertionSort (fun a b => a ≤ b)
          (firstSeen ((dropna_nucleo t).filterMap fun r =>
            r.dataCadastro.bind parse)) := by
    unfold resumo_data
    rw [List.map_map]
    rw [show (Prod.fst ∘ fun d =>
        (d, (((dropna_nucleo t).filterMap fun r =>
          r.dataCadastro.bind parse).filter fun x => x == d).length)) = id from rfl,
      List.map_id]
  refine ⟨?_, ?_, ?_, ?_, ?_⟩
  · rw [hfst]
    exact List.sorted_insertionSort _ _
  · rw [hfst]
    exact (List.perm_insertionSort _ _).nodup_iff.mpr (nodup_firstSeen _)
  · intro d n h
    unfold resumo_data at h
    rw [List.mem_map] at h
    obtain ⟨d1, hd1, heq⟩ := h
    have hd : d1 = d := congrArg Prod.fst heq
    have hn : (((dropna_nucleo t).filterMap fun r =>
        r.dataCadastro.bind parse).filter fun x => x == d1).length = n :=
      congrArg Prod.snd heq
    subst hd
    constructor
    · rw [← hn, length_filter_filterMap]
    · have hmem : d1 ∈ (dropna_nucleo t).filterMap fun r =>
          r.dataCadastro.bind parse := by
        have := ((List.perm_insertionSort _ _).mem_iff).mp hd1
        exact mem_firstSeen.mp this
      have : d1 ∈ ((dropna_nucleo t).filterMap fun r =>
          r.dataCadastro.bind parse).filter fun x => x == d1 := by
        rw [List.mem_filter]
        exact ⟨hmem, by simp⟩
      rw [← hn]
      exact List.length_pos_of_mem this
  · intro d
    rw [hfst, (List.perm_insertionSort _ _).mem_iff, mem_firstSeen,
      List.mem_filterMap]
  · intro f
    have h1 : dropna_nucleo (t.map fun r =>
        { nucleo := r.nucleo, cadastro := r.cadastro, dataCadastro := f r
          geolocation := r.geolocation, funcionario := r.funcionario })
        = (dropna_nucleo t).map fun r =>
            { nucleo := r.nucleo, cadastro := r.cadastro, dataCadastro := f r
              geolocation := r.geolocation, funcionario := r.funcionario } := by
      unfold dropna_nucleo
      rw [List.filter_map]
      rfl
    have h2 : sortedKeys ((dropna_nucleo t).map fun r =>
        { nucleo := r.nucleo, cadastro := r.cadastro, dataCadastro := f r
          geolocation := r.geolocation, funcionario := r.funcionario })
        = sortedKeys (dropna_nucleo t) := by
      unfold sortedKeys
      rw [List.filterMap_map]
      rfl
    have h3 : ∀ k, catCount ((dropna_nucleo t).map fun r =>
        { nucleo := r.nucleo, cadastro := r.cadastro, dataCadastro := f r
          geolocation := r.geolocation, funcionario := r.funcionario }) k
        = catCount (dropna_nucleo t) k := by
      intro k
      unfold catCount
      rw [List.filter_map, List.length_map]
      rfl
    simp only [resumo_nucleo]
    rw [h1, h2]
    apply List.map_congr_left
    intro k _
    rw [h3 k]

/-- A valid date string for the witness date parser below. -/
def parseD : String → Option Nat := fun s => if s = "d1" then some 5 else none

def rowD1 : Row :=
  { nucleo := some "A", cadastro := some "X", dataCadastro := some "d1"
    geolocation := .na, funcionario := none }

theorem claim_c9_witness :
    1 = ((dropna_nucleo [rowD1]).filter fun r =>
        r.dataCadastro.bind parseD == some 5).length ∧ 0 < 1 :=
  (claim_c9 parseD [rowD1]).2.2.1 5 1 (by decide)
